import Mathlib

/-!
Shallow embedding of the view `Selection` class from
`src/packages/ckeditor5-engine/src/view/selection.js`.

The `Position` and `Range` collaborator types live outside the provided
sources; they are modelled from the spec's interface description (§6):
a `Position` is a location totally ordered by a three-way comparison, a
`Range` is an ordered pair of positions with an intersection predicate.
Positions are embedded as natural numbers (a total order with a three-way
comparison), which is all the selection code observes of them.  Ranges and
positions are value types here, so the source's defensive copies
(`Position.createFromPosition`, `Range.createFromRange`) are identities.
-/

/-- Modelled from the spec: a Position is a location totally ordered by a
three-way comparison (`before` / `after` / `same`).  Embedded as `Nat`. -/
abbrev Pos := Nat

/-- Result of the Position collaborator's three-way comparison. -/
inductive PosRel where
  | before
  | same
  | after
deriving DecidableEq, Repr

/-- Modelled from the spec: `Position#compareWith` — `a.compareWith b` is
`before` when `a` is before `b`, `after` when `a` is after `b`, else `same`. -/
def Pos.compareWith (a b : Pos) : PosRel :=
  if a < b then .before else if a = b then .same else .after

/-- Modelled from the spec: a Range is an ordered pair of positions
(`start`, `end`); `start` is not necessarily before `end`.  The JS field
`end` is a Lean keyword, hence `endPos`. -/
structure VRange where
  start : Pos
  endPos : Pos
deriving DecidableEq, Repr

/-- Modelled from the spec: `Range#isCollapsed` — start and end coincide. -/
def VRange.isCollapsed (r : VRange) : Bool :=
  r.start == r.endPos

/-- Modelled from the spec: the Range collaborator's intersection predicate
`Range#isIntersecting` — `this.start.isBefore(other.end) &&
this.end.isAfter(other.start)`: two ranges intersect when each one starts
strictly before the other one ends. -/
def VRange.isIntersecting (a b : VRange) : Bool :=
  decide (a.start < b.endPos) && decide (b.start < a.endPos)

/-- Modelled from the spec: `Range#isEqual` — value equality of both ends. -/
def VRange.isEqualRange (a b : VRange) : Bool :=
  a.start == b.start && a.endPos == b.endPos

/-- The selection state: the protected fields `_ranges`,
`_lastRangeBackward`, `_isFake` and `_fakeSelectionLabel` of the JS class. -/
structure Selection where
  ranges : List VRange
  lastRangeBackward : Bool
  isFake : Bool
  fakeSelectionLabel : String
deriving DecidableEq, Repr

/-- The `CKEditorError` kinds the selection code can raise. -/
inductive SelErr where
  /-- `view-selection-invalid-range` -/
  | invalidRange
  /-- `view-selection-range-intersects`, carrying the added range and the
  stored range it intersects. -/
  | intersectingRange (addedRange : VRange) (storedRange : VRange)
  /-- `view-selection-setTo-required-second-parameter` -/
  | requiredSecondParameter
  /-- `view-selection-setFocus-no-ranges` -/
  | noRanges
  /-- `view-selection-setTo-not-selectable` -/
  | notSelectableErr
deriving DecidableEq, Repr

/-- Getter `rangeCount`: `this._ranges.length`. -/
def Selection.rangeCount (s : Selection) : Nat :=
  s.ranges.length

/-- Getter `anchor`: `null` when `_ranges` is empty, else the `end` of the
last stored range when `_lastRangeBackward`, its `start` otherwise (the JS
returns `Position.createFromPosition` of it, an identity on values). -/
def Selection.anchor (s : Selection) : Option Pos :=
  if h : s.ranges.length = 0 then none
  else
    let range := s.ranges.get ⟨s.ranges.length - 1, by omega⟩
    some (if s.lastRangeBackward then range.endPos else range.start)

/-- Getter `focus`: `null` when `_ranges` is empty, else the complementary
endpoint of the same last stored range. -/
def Selection.focus (s : Selection) : Option Pos :=
  if h : s.ranges.length = 0 then none
  else
    let range := s.ranges.get ⟨s.ranges.length - 1, by omega⟩
    some (if s.lastRangeBackward then range.start else range.endPos)

/-- Getter `isCollapsed`: exactly one stored range and it is collapsed. -/
def Selection.isCollapsed (s : Selection) : Bool :=
  s.rangeCount == 1 &&
    (match s.ranges.head? with
     | some r => r.isCollapsed
     | none => false)

/-- Getter `isBackward`: `!this.isCollapsed && this._lastRangeBackward`. -/
def Selection.isBackward (s : Selection) : Bool :=
  !s.isCollapsed && s.lastRangeBackward

/-- `getRanges()`: copies of all stored ranges in insertion order (copies
are identities on values). -/
def Selection.getRanges (s : Selection) : List VRange :=
  s.ranges

/-- `isEqual( otherSelection )`, translated clause for clause. -/
def Selection.isEqual (a b : Selection) : Bool :=
  if a.isFake != b.isFake then
    false
  else if a.isFake && a.fakeSelectionLabel != b.fakeSelectionLabel then
    false
  else if a.rangeCount != b.rangeCount then
    false
  else if a.rangeCount == 0 then
    true
  else if !(a.anchor == b.anchor) || !(a.focus == b.focus) then
    false
  else
    a.ranges.all fun thisRange =>
      b.ranges.any fun otherRange => thisRange.isEqualRange otherRange

/-- `isSimilar( otherSelection )`, parametrised by the external boundary
trimming operation `Range#getTrimmed` (supplied by the Range collaborator,
outside this core). -/
def Selection.isSimilar (trim : VRange → VRange) (a b : Selection) : Bool :=
  if a.isBackward != b.isBackward then
    false
  else if a.getRanges.length != b.getRanges.length then
    false
  else if a.getRanges.length == 0 then
    true
  else
    a.getRanges.all fun rangeA =>
      let ta := trim rangeA
      b.getRanges.any fun rangeB =>
        let tb := trim rangeB
        ta.start == tb.start && ta.endPos == tb.endPos

/-- `_pushRange( range )`: scans the stored ranges for one intersecting
`range`; on the first match raises `view-selection-range-intersects`
carrying both ranges and leaves the state untouched, otherwise appends a
copy of `range`.  The state at raise time is returned alongside the error,
mirroring in-place mutation plus exception propagation. -/
def Selection._pushRange (s : Selection) (range : VRange) :
    Selection × Option SelErr :=
  match s.ranges.find? (fun storedRange => range.isIntersecting storedRange) with
  | some storedRange => (s, some (.intersectingRange range storedRange))
  | none => ({ s with ranges := s.ranges ++ [range] }, none)

/-- `_addRange( range, isBackward )`: pushes the range, then sets
`_lastRangeBackward`; when the push raises, the flag is not touched.  (The
JS `instanceof Range` guard raising `view-selection-invalid-range` cannot
fire here: every `VRange` is a range.) -/
def Selection._addRange (s : Selection) (range : VRange) (isBackward : Bool) :
    Selection × Option SelErr :=
  match s._pushRange range with
  | (s', none) => ({ s' with lastRangeBackward := isBackward }, none)
  | (s', some e) => (s', some e)

/-- The `for ( const range of newRanges ) this._addRange( range )` loop of
`_setRanges`: adds the ranges one by one, stopping at the first raise with
the state reached so far. -/
def addRangesLoop : Selection → List VRange → Selection × Option SelErr
  | s, [] => (s, none)
  | s, range :: rest =>
    match s._addRange range false with
    | (s', none) => addRangesLoop s' rest
    | (s', some e) => (s', some e)

/-- `_setRanges( newRanges, isLastBackward )`: clears the stored ranges,
adds the new ones one by one, then sets `_lastRangeBackward`; a raise
mid-loop leaves the partially rebuilt state and skips the flag update. -/
def Selection._setRanges (s : Selection) (newRanges : List VRange)
    (isLastBackward : Bool) : Selection × Option SelErr :=
  match addRangesLoop { s with ranges := [] } newRanges with
  | (s', none) => ({ s' with lastRangeBackward := isLastBackward }, none)
  | (s', some e) => (s', some e)

/-- The options record (`backward` / `fake` / `label`) of the `setTo`-class
operations; an absent record is the record with every field absent. -/
structure SetOptions where
  backward : Bool := false
  fake : Bool := false
  label : Option String := none
deriving DecidableEq, Repr

/-- `_setFakeOptions( options )`: `_isFake = !!options.fake;
_fakeSelectionLabel = options.fake ? options.label || '' : ''`. -/
def Selection._setFakeOptions (s : Selection) (options : SetOptions) : Selection :=
  { s with
    isFake := options.fake
    fakeSelectionLabel := if options.fake then options.label.getD "" else "" }

/-- Outcome of a mutating operation: the selection state when the call
returned or raised, the raised error if any, and whether `fire( 'change' )`
ran. -/
structure MutResult where
  sel : Selection
  err : Option SelErr
  fired : Bool
deriving DecidableEq, Repr

/-- `_setFocus( position )` (the item/offset form of the argument resolves
through `Position.createAt`, outside this core; a plain position reaches
this code as an identical value).  Raises `view-selection-setFocus-no-ranges`
on an empty selection; is a silent no-op when the new focus compares `same`
to the current focus; otherwise pops the last stored range and adds the
range spanning anchor and new focus, backward when the new focus is before
the anchor, firing `change` on success.  `anchor` and `focus` are `none`
together, so the final catch-all case is the empty-selection raise. -/
def Selection._setFocus (s : Selection) (newFocus : Pos) : MutResult :=
  match s.anchor, s.focus with
  | some anchorPos, some focusPos =>
    if newFocus.compareWith focusPos = .same then
      ⟨s, none, false⟩
    else
      let popped := { s with ranges := s.ranges.dropLast }
      match
        (if newFocus.compareWith anchorPos = .before then
          popped._addRange ⟨newFocus, anchorPos⟩ true
        else
          popped._addRange ⟨anchorPos, newFocus⟩ false) with
      | (s', none) => ⟨s', none, true⟩
      | (s', some e) => ⟨s', some e, false⟩
  | _, _ => ⟨s, some .noRanges, false⟩

/-- The resolved `selectable` argument of `_setTo` (spec §9: a tagged union
with one case per accepted kind).  The tree-item/placement case depends on
the document-tree collaborators (`Range.createIn` / `createOn` /
`createCollapsedAt`) and is not needed by any claim, so it is omitted; the
"anything else" case is unrepresentable in a typed embedding. -/
inductive Selectable where
  | nullSel
  | fromSelection (other : Selection)
  | fromRange (range : VRange)
  | fromPosition (position : Pos)
  | fromRanges (ranges : List VRange)

/-- `_setTo( selectable, options )`: dispatches on the selectable kind,
replaces the range set, resolves the fake metadata, and fires `change` at
the end; a raise inside `_setRanges` skips both the fake-metadata update
and the notification.  (`new Range( position )` is the collapsed range at
that position.) -/
def Selection._setTo (s : Selection) (selectable : Selectable)
    (options : SetOptions) : MutResult :=
  let stepped : Selection × Option SelErr :=
    match selectable with
    | .nullSel =>
      match s._setRanges [] false with
      | (s', none) => (s'._setFakeOptions options, none)
      | (s', some e) => (s', some e)
    | .fromSelection other =>
      match s._setRanges other.getRanges other.isBackward with
      | (s', none) =>
        (s'._setFakeOptions
          { fake := other.isFake, label := some other.fakeSelectionLabel }, none)
      | (s', some e) => (s', some e)
    | .fromRange range =>
      match s._setRanges [range] options.backward with
      | (s', none) => (s'._setFakeOptions options, none)
      | (s', some e) => (s', some e)
    | .fromPosition position =>
      match s._setRanges [⟨position, position⟩] false with
      | (s', none) => (s'._setFakeOptions options, none)
      | (s', some e) => (s', some e)
    | .fromRanges ranges =>
      match s._setRanges ranges options.backward with
      | (s', none) => (s'._setFakeOptions options, none)
      | (s', some e) => (s', some e)
  match stepped with
  | (s', none) => ⟨s', none, true⟩
  | (s', some e) => ⟨s', some e, false⟩

/-- The field values every `new Selection( ... )` starts from, before the
constructor delegates to `_setTo`. -/
def Selection.initial : Selection :=
  ⟨[], false, false, ""⟩

/-- The constructor: initial fields, then `_setTo`. -/
def Selection.construct (selectable : Selectable) (options : SetOptions) :
    MutResult :=
  Selection.initial._setTo selectable options

/-- The reachable selection states: produced by a constructor call, or from
a reachable state by a `_setTo`-class mutation or a focus relocation, none
of which raised. -/
inductive Reachable : Selection → Prop where
  | construct (selectable : Selectable) (options : SetOptions)
      (h : (Selection.construct selectable options).err = none) :
      Reachable (Selection.construct selectable options).sel
  | setTo (s : Selection) (selectable : Selectable) (options : SetOptions)
      (hs : Reachable s) (h : (s._setTo selectable options).err = none) :
      Reachable (s._setTo selectable options).sel
  | setFocus (s : Selection) (p : Pos)
      (hs : Reachable s) (h : (s._setFocus p).err = none) :
      Reachable (s._setFocus p).sel

/-- Invariant I1: the stored ranges are pairwise non-intersecting. -/
def pairwiseNonIntersecting (rs : List VRange) : Prop :=
  rs.Pairwise fun a b => a.isIntersecting b = false

/-! ### Invariant preservation lemmas -/

theorem isIntersecting_comm (a b : VRange) :
    a.isIntersecting b = b.isIntersecting a := by
  simp [VRange.isIntersecting, Bool.and_comm]

theorem setFakeOptions_ranges (s : Selection) (o : SetOptions) :
    (s._setFakeOptions o).ranges = s.ranges := rfl

theorem pairwiseNonIntersecting_push {rs : List VRange} {r : VRange}
    (h : pairwiseNonIntersecting rs)
    (hnone : rs.find? (fun t => r.isIntersecting t) = none) :
    pairwiseNonIntersecting (rs ++ [r]) := by
  have hall : ∀ t ∈ rs, r.isIntersecting t = false := by
    intro t ht
    simpa using List.find?_eq_none.mp hnone t ht
  unfold pairwiseNonIntersecting at h ⊢
  rw [List.pairwise_append]
  refine ⟨h, by simp, ?_⟩
  intro a ha b hb
  simp only [List.mem_singleton] at hb
  subst hb
  rw [isIntersecting_comm]
  exact hall a ha

theorem pushRange_invariant (s : Selection) (r : VRange)
    (h : pairwiseNonIntersecting s.ranges) :
    pairwiseNonIntersecting (s._pushRange r).1.ranges := by
  unfold Selection._pushRange
  cases hf : s.ranges.find? (fun t => r.isIntersecting t) with
  | some t => simpa using h
  | none => simpa using pairwiseNonIntersecting_push h hf

theorem addRange_invariant (s : Selection) (r : VRange) (b : Bool)
    (h : pairwiseNonIntersecting s.ranges) :
    pairwiseNonIntersecting (s._addRange r b).1.ranges := by
  unfold Selection._addRange
  have hpush := pushRange_invariant s r h
  cases hp : s._pushRange r with
  | mk s' e =>
    rw [hp] at hpush
    cases e with
    | none => simpa using hpush
    | some e => simpa using hpush

theorem addRangesLoop_invariant (rs : List VRange) : ∀ (s : Selection),
    pairwiseNonIntersecting s.ranges →
    pairwiseNonIntersecting (addRangesLoop s rs).1.ranges := by
  induction rs with
  | nil => intro s h; simpa [addRangesLoop] using h
  | cons r rest ih =>
    intro s h
    unfold addRangesLoop
    have hadd := addRange_invariant s r false h
    cases ha : s._addRange r false with
    | mk s' e =>
      rw [ha] at hadd
      cases e with
      | none => exact ih s' hadd
      | some e => simpa using hadd

theorem setRanges_invariant (s : Selection) (rs : List VRange) (b : Bool) :
    pairwiseNonIntersecting (s._setRanges rs b).1.ranges := by
  unfold Selection._setRanges
  have h0 : pairwiseNonIntersecting ({ s with ranges := [] } : Selection).ranges := by
    simp [pairwiseNonIntersecting]
  have hloop := addRangesLoop_invariant rs _ h0
  cases hl : addRangesLoop { s with ranges := [] } rs with
  | mk s' e =>
    rw [hl] at hloop
    cases e with
    | none => simpa using hloop
    | some e => simpa using hloop

theorem setToStep_invariant (s : Selection) (rs : List VRange) (b : Bool)
    (o : SetOptions) :
    pairwiseNonIntersecting
      (match
        (match s._setRanges rs b with
         | (s', none) => (s'._setFakeOptions o, none)
         | (s', some e) => (s', some e)) with
       | (s', none) => (⟨s', none, true⟩ : MutResult)
       | (s', some e) => ⟨s', some e, false⟩).sel.ranges := by
  have h := setRanges_invariant s rs b
  cases hr : s._setRanges rs b with
  | mk s' e =>
    rw [hr] at h
    cases e with
    | none => simpa [Selection._setFakeOptions] using h
    | some e => simpa using h

theorem setTo_invariant (s : Selection) (sel : Selectable) (o : SetOptions) :
    pairwiseNonIntersecting (s._setTo sel o).sel.ranges := by
  cases sel with
  | nullSel => exact setToStep_invariant s [] false o
  | fromSelection other =>
    exact setToStep_invariant s other.getRanges other.isBackward
      { fake := other.isFake, label := some other.fakeSelectionLabel }
  | fromRange range => exact setToStep_invariant s [range] o.backward o
  | fromPosition position =>
    exact setToStep_invariant s [⟨position, position⟩] false o
  | fromRanges ranges => exact setToStep_invariant s ranges o.backward o

theorem setFocus_invariant (s : Selection) (p : Pos)
    (h : pairwiseNonIntersecting s.ranges) :
    pairwiseNonIntersecting (s._setFocus p).sel.ranges := by
  unfold Selection._setFocus
  cases ha : s.anchor with
  | none => simpa using h
  | some A =>
    cases hf : s.focus with
    | none => simpa using h
    | some F =>
      by_cases hsame : p.compareWith F = .same
      · simpa [hsame] using h
      · simp only [hsame, if_false]
        have hpop : pairwiseNonIntersecting
            ({ s with ranges := s.ranges.dropLast } : Selection).ranges :=
          List.Pairwise.sublist (List.dropLast_sublist _) h
        by_cases hbef : p.compareWith A = .before
        · simp only [hbef, if_true]
          have hadd := addRange_invariant
            { s with ranges := s.ranges.dropLast } ⟨p, A⟩ true hpop
          cases hr : ({ s with ranges := s.ranges.dropLast } : Selection)._addRange ⟨p, A⟩ true with
          | mk s' e =>
            rw [hr] at hadd
            cases e with
            | none => simpa using hadd
            | some e => simpa using hadd
        · simp only [hbef, if_false]
          have hadd := addRange_invariant
            { s with ranges := s.ranges.dropLast } ⟨A, p⟩ false hpop
          cases hr : ({ s with ranges := s.ranges.dropLast } : Selection)._addRange ⟨A, p⟩ false with
          | mk s' e =>
            rw [hr] at hadd
            cases e with
            | none => simpa using hadd
            | some e => simpa using hadd

theorem reachable_invariant (s : Selection) (hs : Reachable s) :
    pairwiseNonIntersecting s.ranges := by
  induction hs with
  | construct sel o h => exact setTo_invariant _ _ _
  | setTo s sel o hs h ih => exact setTo_invariant _ _ _
  | setFocus s p hs h ih => exact setFocus_invariant _ _ ih

/-! ### Success-path equations for the range-replacement loop -/

theorem addRangesLoop_ok (rest : List VRange) : ∀ (acc : Selection),
    pairwiseNonIntersecting (acc.ranges ++ rest) →
    (addRangesLoop acc rest).2 = none ∧
    (addRangesLoop acc rest).1.ranges = acc.ranges ++ rest ∧
    (addRangesLoop acc rest).1.isFake = acc.isFake ∧
    (addRangesLoop acc rest).1.fakeSelectionLabel = acc.fakeSelectionLabel := by
  induction rest with
  | nil => intro acc h; simp [addRangesLoop]
  | cons r rest ih =>
    intro acc h
    have hfind : acc.ranges.find? (fun t => r.isIntersecting t) = none := by
      rw [List.find?_eq_none]
      intro t ht
      have hpair : t.isIntersecting r = false := by
        have := (List.pairwise_append.mp h).2.2 t ht r (by simp)
        exact this
      simp only [isIntersecting_comm r t, hpair, Bool.false_eq_true,
        not_false_eq_true]
    have hstep : acc._addRange r false
        = ({ acc with ranges := acc.ranges ++ [r], lastRangeBackward := false }, none) := by
      simp [Selection._addRange, Selection._pushRange, hfind]
    unfold addRangesLoop
    rw [hstep]
    have hrest := ih { acc with ranges := acc.ranges ++ [r], lastRangeBackward := false }
      (by simpa using h)
    simpa using hrest

theorem setRanges_ok (s : Selection) (rs : List VRange) (b : Bool)
    (h : pairwiseNonIntersecting rs) :
    s._setRanges rs b =
      ({ s with ranges := rs, lastRangeBackward := b }, none) := by
  unfold Selection._setRanges
  have hloop := addRangesLoop_ok rs { s with ranges := [] } (by simpa using h)
  cases hl : addRangesLoop { s with ranges := [] } rs with
  | mk s' e =>
    rw [hl] at hloop
    obtain ⟨he, hr, hf, hlab⟩ := hloop
    simp only at he hr hf hlab
    subst he
    simp only
    have : s' = { s with ranges := rs, lastRangeBackward := s'.lastRangeBackward } := by
      cases s' with
      | mk a bb c d => simp_all
    rw [this]

/-- C1: every pair of distinct stored ranges of a reachable selection state
is non-intersecting under the Range collaborator's intersection predicate. -/
theorem c1_reachable_ranges_nonIntersecting (s : Selection) (hs : Reachable s)
    (i j : Nat) (hi : i < s.ranges.length) (hj : j < s.ranges.length)
    (hij : i ≠ j) :
    (s.ranges.get ⟨i, hi⟩).isIntersecting (s.ranges.get ⟨j, hj⟩) = false := by
  have hp := reachable_invariant s hs
  rw [pairwiseNonIntersecting, List.pairwise_iff_get] at hp
  rcases Nat.lt_or_ge i j with hlt | hge
  · exact hp ⟨i, hi⟩ ⟨j, hj⟩ hlt
  · have hlt : j < i := Nat.lt_of_le_of_ne hge (Ne.symm hij)
    rw [isIntersecting_comm]
    exact hp ⟨j, hj⟩ ⟨i, hi⟩ hlt

/-- Witness for C1 on a concrete two-range reachable state. -/
theorem c1_reachable_ranges_nonIntersecting_witness :
    ((Selection.construct (.fromRanges [⟨0, 1⟩, ⟨2, 3⟩]) {}).sel.ranges.get
        ⟨0, by decide⟩).isIntersecting
      ((Selection.construct (.fromRanges [⟨0, 1⟩, ⟨2, 3⟩]) {}).sel.ranges.get
        ⟨1, by decide⟩) = false :=
  c1_reachable_ranges_nonIntersecting _
    (Reachable.construct (.fromRanges [⟨0, 1⟩, ⟨2, 3⟩]) {} (by decide))
    0 1 (by decide) (by decide) (by decide)

/-- C2: inserting a range that intersects an already-stored range raises
`view-selection-range-intersects` carrying both the attempted range and the
stored range it collides with, and mutates nothing: the stored range set
and the direction flag are exactly as before the call. -/
theorem c2_addRange_intersect_fails (s : Selection) (r : VRange) (b : Bool)
    (h : ∃ t ∈ s.ranges, r.isIntersecting t = true) :
    (s._addRange r b).1 = s ∧
    ∃ t ∈ s.ranges, r.isIntersecting t = true ∧
      (s._addRange r b).2 = some (.intersectingRange r t) := by
  have hsome : (s.ranges.find? (fun t => r.isIntersecting t)).isSome := by
    rw [List.find?_isSome]
    obtain ⟨t, ht, hrt⟩ := h
    exact ⟨t, ht, by simpa using hrt⟩
  obtain ⟨t, hft⟩ := Option.isSome_iff_exists.mp hsome
  have hmem := List.mem_of_find?_eq_some hft
  have hprop : r.isIntersecting t = true := by simpa using List.find?_some hft
  have heq : s._addRange r b = (s, some (.intersectingRange r t)) := by
    simp [Selection._addRange, Selection._pushRange, hft]
  exact ⟨by rw [heq], t, hmem, hprop, by rw [heq]⟩

/-- Witness for C2: stored `(0,2)`, inserting the overlapping `(1,3)`. -/
theorem c2_addRange_intersect_fails_witness :
    ((Selection.mk [⟨0, 2⟩] false false "")._addRange ⟨1, 3⟩ true).1
        = Selection.mk [⟨0, 2⟩] false false "" ∧
    ∃ t ∈ (Selection.mk [⟨0, 2⟩] false false "").ranges,
      VRange.isIntersecting ⟨1, 3⟩ t = true ∧
      ((Selection.mk [⟨0, 2⟩] false false "")._addRange ⟨1, 3⟩ true).2
        = some (.intersectingRange ⟨1, 3⟩ t) :=
  c2_addRange_intersect_fails (Selection.mk [⟨0, 2⟩] false false "") ⟨1, 3⟩ true
    (by decide)

/-- C3: an empty selection has no anchor and no focus; a non-empty one
derives both from the most recently inserted (last stored) range: anchor is
its `end` when `_lastRangeBackward` and its `start` otherwise, focus is the
complementary endpoint of that same range. -/
theorem c3_anchor_focus_spec (s : Selection) :
    (s.ranges = [] → s.anchor = none ∧ s.focus = none) ∧
    (∀ r, s.ranges.getLast? = some r →
      s.anchor = some (if s.lastRangeBackward then r.endPos else r.start) ∧
      s.focus = some (if s.lastRangeBackward then r.start else r.endPos)) := by
  constructor
  · intro h
    simp [Selection.anchor, Selection.focus, h]
  · intro r hr
    have hne : s.ranges.length ≠ 0 := by
      intro h
      rw [List.length_eq_zero.mp h] at hr
      simp at hr
    have hlt : s.ranges.length - 1 < s.ranges.length := by omega
    have hget : s.ranges[s.ranges.length - 1] = r := by
      rw [List.getLast?_eq_getElem?] at hr
      rw [List.getElem?_eq_getElem hlt] at hr
      simpa using hr
    have hne' : ¬ s.ranges = [] := by
      intro h; exact hne (by simp [h])
    simp [Selection.anchor, Selection.focus, dif_neg hne, hget, hne']

/-- Witness for C3 on a concrete backward single-range selection. -/
theorem c3_anchor_focus_spec_witness :
    (Selection.mk [⟨1, 4⟩] true false "").anchor = some 4 ∧
    (Selection.mk [⟨1, 4⟩] true false "").focus = some 1 :=
  (c3_anchor_focus_spec (Selection.mk [⟨1, 4⟩] true false "")).2 ⟨1, 4⟩ rfl

theorem vrange_isEqualRange_iff (a b : VRange) :
    a.isEqualRange b = true ↔ a = b := by
  cases a
  cases b
  simp [VRange.isEqualRange, VRange.mk.injEq]

theorem isEqual_characterization (a b : Selection) :
    a.isEqual b = true ↔
      (a.isFake = b.isFake ∧
       (a.isFake = true → a.fakeSelectionLabel = b.fakeSelectionLabel) ∧
       a.rangeCount = b.rangeCount ∧
       (a.rangeCount = 0 ∨
         (a.anchor = b.anchor ∧ a.focus = b.focus ∧
          ∀ ra ∈ a.ranges, ∃ rb ∈ b.ranges, ra = rb))) := by
  unfold Selection.isEqual
  split_ifs with h1 h2 h3 h4 h5
  · simp only [false_iff]
    intro hR
    rw [bne_iff_ne] at h1
    exact h1 hR.1
  · simp only [false_iff]
    intro hR
    rw [Bool.and_eq_true, bne_iff_ne] at h2
    exact h2.2 (hR.2.1 h2.1)
  · simp only [false_iff]
    intro hR
    rw [bne_iff_ne] at h3
    exact h3 hR.2.2.1
  · have h1' : a.isFake = b.isFake := by simpa [bne_iff_ne] using h1
    have h2' : a.isFake = true → a.fakeSelectionLabel = b.fakeSelectionLabel := by
      intro hf
      by_contra hne
      exact h2 (by rw [Bool.and_eq_true, bne_iff_ne]; exact ⟨hf, hne⟩)
    have h3' : a.rangeCount = b.rangeCount := by simpa [bne_iff_ne] using h3
    have h4' : a.rangeCount = 0 := by simpa using h4
    simp only [true_iff]
    exact ⟨h1', h2', h3', Or.inl h4'⟩
  · simp only [false_iff]
    intro hR
    rcases hR.2.2.2 with hc | ⟨ha, hf, -⟩
    · exact (by simpa using h4 : ¬ a.rangeCount = 0) hc
    · rw [Bool.or_eq_true, Bool.not_eq_true', Bool.not_eq_true'] at h5
      rcases h5 with h5 | h5
      · rw [beq_eq_false_iff_ne] at h5
        exact h5 ha
      · rw [beq_eq_false_iff_ne] at h5
        exact h5 hf
  · have h1' : a.isFake = b.isFake := by simpa [bne_iff_ne] using h1
    have h2' : a.isFake = true → a.fakeSelectionLabel = b.fakeSelectionLabel := by
      intro hf
      by_contra hne
      exact h2 (by rw [Bool.and_eq_true, bne_iff_ne]; exact ⟨hf, hne⟩)
    have h3' : a.rangeCount = b.rangeCount := by simpa [bne_iff_ne] using h3
    simp only [Bool.or_eq_true, Bool.not_eq_true', beq_eq_false_iff_ne, ne_eq,
      not_or, not_not] at h5
    rw [List.all_eq_true]
    constructor
    · intro hall
      refine ⟨h1', h2', h3', Or.inr ⟨h5.1, h5.2, ?_⟩⟩
      intro ra hra
      have hany := hall ra hra
      rw [List.any_eq_true] at hany
      obtain ⟨rb, hrb, heq⟩ := hany
      exact ⟨rb, hrb, (vrange_isEqualRange_iff ra rb).mp heq⟩
    · rintro ⟨-, -, -, hc | ⟨-, -, hcont⟩⟩
      · exact absurd hc (by simpa using h4)
      · intro ra hra
        rw [List.any_eq_true]
        obtain ⟨rb, hrb, heq⟩ := hcont ra hra
        exact ⟨rb, hrb, (vrange_isEqualRange_iff ra rb).mpr heq⟩

/-- C4 counterexample: two reachable selections whose stored range
multisets differ — `[(5,5),(5,5)]` versus `[(3,3),(5,5)]` — yet `isEqual`
returns `true`: fake flags agree, range counts agree and are non-zero,
anchors and foci agree, but the range containment check is one-directional
only, so it is not unordered multiset equality. -/
theorem c4_isEqual_multiset_counterexample :
    (Selection.construct (.fromRanges [⟨5, 5⟩, ⟨5, 5⟩]) {}).err = none ∧
    (Selection.construct (.fromRanges [⟨3, 3⟩, ⟨5, 5⟩]) {}).err = none ∧
    Selection.isEqual
      (Selection.construct (.fromRanges [⟨5, 5⟩, ⟨5, 5⟩]) {}).sel
      (Selection.construct (.fromRanges [⟨3, 3⟩, ⟨5, 5⟩]) {}).sel = true ∧
    ¬ (Selection.construct (.fromRanges [⟨5, 5⟩, ⟨5, 5⟩]) {}).sel.ranges.Perm
      (Selection.construct (.fromRanges [⟨3, 3⟩, ⟨5, 5⟩]) {}).sel.ranges := by
  refine ⟨by decide, by decide, by decide, fun hperm => ?_⟩
  have hcount := hperm.count_eq ⟨3, 3⟩
  revert hcount
  decide

/-- C4 (amended): `isEqual` returns false if fake flags differ, or both are
fake with different labels, or range counts differ; returns true if both
have zero ranges; and otherwise returns true exactly when the anchors and
foci agree and every stored range of `a` has a value-equal counterpart
among `b`'s stored ranges (one-directional containment, not unordered
multiset equality). -/
theorem c4_isEqual_spec (a b : Selection) :
    a.isEqual b = true ↔
      (a.isFake = b.isFake ∧
       (a.isFake = true → a.fakeSelectionLabel = b.fakeSelectionLabel) ∧
       a.rangeCount = b.rangeCount ∧
       (a.rangeCount = 0 ∨
         (a.anchor = b.anchor ∧ a.focus = b.focus ∧
          ∀ ra ∈ a.ranges, ∃ rb ∈ b.ranges, ra = rb))) :=
  isEqual_characterization a b

/-- Witness for C4 (amended) on a concrete fake single-range selection. -/
theorem c4_isEqual_spec_witness :
    Selection.isEqual (Selection.mk [⟨1, 2⟩] true true "L")
      (Selection.mk [⟨1, 2⟩] true true "L") = true :=
  (c4_isEqual_spec (Selection.mk [⟨1, 2⟩] true true "L")
      (Selection.mk [⟨1, 2⟩] true true "L")).mpr
    ⟨rfl, fun _ => rfl, rfl, Or.inr ⟨rfl, rfl, by decide⟩⟩

theorem focus_none_iff (s : Selection) :
    s.focus = none ↔ s.ranges.length = 0 := by
  unfold Selection.focus
  by_cases h : s.ranges.length = 0 <;> simp [h]

theorem anchor_none_iff (s : Selection) :
    s.anchor = none ↔ s.ranges.length = 0 := by
  unfold Selection.anchor
  by_cases h : s.ranges.length = 0 <;> simp [h]

/-- C5: relocating the focus of a non-empty selection to a position that
three-way-compares `same` to the current focus is a no-op — the result
carries the very same state, no error, and no `change` notification. -/
theorem c5_setFocus_same_noop (s : Selection) (p q : Pos)
    (hfocus : s.focus = some q) (hsame : p.compareWith q = .same) :
    s._setFocus p = ⟨s, none, false⟩ := by
  unfold Selection._setFocus
  cases ha : s.anchor with
  | none =>
    rw [anchor_none_iff] at ha
    rw [(focus_none_iff s).mpr ha] at hfocus
    cases hfocus
  | some A =>
    rw [hfocus]
    simp [hsame]

/-- Witness for C5: single range `(1,3)` forward, focus relocated to `3`. -/
theorem c5_setFocus_same_noop_witness :
    (Selection.mk [⟨1, 3⟩] false false "")._setFocus 3
      = ⟨Selection.mk [⟨1, 3⟩] false false "", none, false⟩ :=
  c5_setFocus_same_noop (Selection.mk [⟨1, 3⟩] false false "") 3 3
    (by decide) (by decide)

theorem addRange_ok_shape (s : Selection) (r : VRange) (b : Bool)
    (s' : Selection) (h : s._addRange r b = (s', none)) :
    s' = { s with ranges := s.ranges ++ [r], lastRangeBackward := b } := by
  unfold Selection._addRange Selection._pushRange at h
  cases hf : s.ranges.find? (fun t => r.isIntersecting t) with
  | some t =>
    rw [hf] at h
    simp at h
  | none =>
    rw [hf] at h
    simp at h
    exact h.symm

/-- C6: relocating the focus of a non-empty selection to a target that
differs from the current focus removes only the last stored range, inserts
the range spanning the anchor and the target — oriented backward exactly
when the target is before the anchor — and fires `change` on success. -/
theorem c6_setFocus_move_spec (s : Selection) (p A F : Pos)
    (hanchor : s.anchor = some A) (hfocus : s.focus = some F)
    (hdiff : p.compareWith F ≠ .same)
    (hok : (s._setFocus p).err = none) :
    (s._setFocus p).sel.ranges
        = s.ranges.dropLast
          ++ [if p.compareWith A = .before then ⟨p, A⟩ else ⟨A, p⟩] ∧
    (s._setFocus p).sel.lastRangeBackward
        = decide (p.compareWith A = .before) ∧
    (s._setFocus p).fired = true := by
  unfold Selection._setFocus at hok ⊢
  rw [hanchor, hfocus] at hok ⊢
  simp only [] at hok ⊢
  rw [if_neg hdiff] at hok ⊢
  by_cases hbef : p.compareWith A = .before
  · rw [if_pos hbef] at hok ⊢
    cases hr :
        ({ s with ranges := s.ranges.dropLast } : Selection)._addRange ⟨p, A⟩ true with
    | mk s' e =>
      rw [hr] at hok
      cases e with
      | some e => simp at hok
      | none =>
        have hs' := addRange_ok_shape _ _ _ _ hr
        subst hs'
        simp [hbef]
  · rw [if_neg hbef] at hok ⊢
    cases hr :
        ({ s with ranges := s.ranges.dropLast } : Selection)._addRange ⟨A, p⟩ false with
    | mk s' e =>
      rw [hr] at hok
      cases e with
      | some e => simp at hok
      | none =>
        have hs' := addRange_ok_shape _ _ _ _ hr
        subst hs'
        simp [hbef]

/-- Witness for C6, the spec's direction-flip example: anchored at `2`,
focus moved to `0` yields the single stored range `(0,2)` with
`isBackward = true`, and `change` fired. -/
theorem c6_setFocus_move_spec_witness :
    (((Selection.mk [⟨2, 2⟩] false false "")._setFocus 0).sel.ranges
        = (Selection.mk [⟨2, 2⟩] false false "").ranges.dropLast
          ++ [if Pos.compareWith 0 2 = .before then ⟨0, 2⟩ else ⟨2, 0⟩] ∧
     ((Selection.mk [⟨2, 2⟩] false false "")._setFocus 0).sel.lastRangeBackward
        = decide (Pos.compareWith 0 2 = .before) ∧
     ((Selection.mk [⟨2, 2⟩] false false "")._setFocus 0).fired = true) ∧
    ((Selection.mk [⟨2, 2⟩] false false "")._setFocus 0).sel.isBackward = true :=
  ⟨c6_setFocus_move_spec (Selection.mk [⟨2, 2⟩] false false "") 0 2 2
      (by decide) (by decide) (by decide) (by decide),
   by decide⟩

theorem isCollapsed_spec (s : Selection) (h : s.isCollapsed = true) :
    s.ranges.length = 1 ∧ ∀ r ∈ s.ranges, r.start = r.endPos := by
  unfold Selection.isCollapsed Selection.rangeCount at h
  rw [Bool.and_eq_true] at h
  obtain ⟨h1, h2⟩ := h
  have hlen : s.ranges.length = 1 := by simpa using h1
  refine ⟨hlen, ?_⟩
  obtain ⟨r0, hr0⟩ := List.length_eq_one.mp hlen
  rw [hr0] at h2
  intro r hr
  rw [hr0] at hr
  simp only [List.mem_singleton] at hr
  subst hr
  simpa [VRange.isCollapsed] using h2

theorem anchor_focus_flag (s : Selection) (f : Bool) (l : String) :
    (Selection.mk s.ranges s.isBackward f l).anchor = s.anchor ∧
    (Selection.mk s.ranges s.isBackward f l).focus = s.focus := by
  by_cases h : s.ranges.length = 0
  · constructor <;> simp [Selection.anchor, Selection.focus, h]
  · unfold Selection.anchor Selection.focus
    simp only [dif_neg h]
    by_cases hc : s.isCollapsed = true
    · obtain ⟨hlen, hcol⟩ := isCollapsed_spec s hc
      have hmem : s.ranges.get ⟨s.ranges.length - 1, by omega⟩ ∈ s.ranges :=
        List.get_mem _ _ _
      have hse := hcol _ hmem
      simp only [List.get_eq_getElem] at hse
      constructor <;> simp [hse]
    · have hcf : s.isCollapsed = false := by simpa using hc
      have hb : s.isBackward = s.lastRangeBackward := by
        simp [Selection.isBackward, hcf]
      rw [hb]
      exact ⟨rfl, rfl⟩

/-- C7: setting a selection to another selection `s` whose stored ranges
satisfy the invariant copies `s`'s ranges, direction, and fake metadata,
and the result compares equal to `s` under `isEqual` in both directions
(same ranges, same anchor and focus, same fake flag; the label is copied
whenever it is observable: when `s` is fake, or when `s` honours the
invariant that a non-fake label is empty). -/
theorem c7_setTo_fromSelection_isEqual (t s : Selection) (o : SetOptions)
    (hinv : pairwiseNonIntersecting s.ranges) :
    (t._setTo (.fromSelection s) o).err = none ∧
    (t._setTo (.fromSelection s) o).sel.ranges = s.ranges ∧
    (t._setTo (.fromSelection s) o).sel.anchor = s.anchor ∧
    (t._setTo (.fromSelection s) o).sel.focus = s.focus ∧
    (t._setTo (.fromSelection s) o).sel.isFake = s.isFake ∧
    (s.isFake = true →
      (t._setTo (.fromSelection s) o).sel.fakeSelectionLabel
        = s.fakeSelectionLabel) ∧
    (s.isFake = false → s.fakeSelectionLabel = "" →
      (t._setTo (.fromSelection s) o).sel.fakeSelectionLabel
        = s.fakeSelectionLabel) ∧
    (t._setTo (.fromSelection s) o).sel.isEqual s = true ∧
    s.isEqual (t._setTo (.fromSelection s) o).sel = true := by
  have hstep : t._setTo (.fromSelection s) o
      = ⟨Selection.mk s.ranges s.isBackward s.isFake
          (if s.isFake then s.fakeSelectionLabel else ""), none, true⟩ := by
    unfold Selection._setTo
    simp only []
    rw [setRanges_ok t s.getRanges s.isBackward
      (by simpa [Selection.getRanges] using hinv)]
    simp [Selection._setFakeOptions, Selection.getRanges]
  rw [hstep]
  have haf := anchor_focus_flag s s.isFake
    (if s.isFake then s.fakeSelectionLabel else "")
  refine ⟨rfl, rfl, haf.1, haf.2, rfl, ?_, ?_, ?_, ?_⟩
  · intro hf
    simp [hf]
  · intro hf hl
    simp [hf, hl]
  · rw [isEqual_characterization]
    refine ⟨rfl, ?_, rfl, ?_⟩
    · intro hf
      simpa using (by simp [show Selection.isFake s = true from hf] :
        (if s.isFake then s.fakeSelectionLabel else "") = s.fakeSelectionLabel)
    · by_cases h0 : s.ranges.length = 0
      · exact Or.inl (by simpa [Selection.rangeCount] using h0)
      · exact Or.inr ⟨haf.1, haf.2, fun ra hra => ⟨ra, hra, rfl⟩⟩
  · rw [isEqual_characterization]
    refine ⟨rfl, ?_, rfl, ?_⟩
    · intro hf
      simp [hf]
    · by_cases h0 : s.ranges.length = 0
      · exact Or.inl (by simpa [Selection.rangeCount] using h0)
      · exact Or.inr ⟨haf.1.symm, haf.2.symm, fun ra hra => ⟨ra, hra, rfl⟩⟩

/-- Witness for C7: copying a fake backward single-range selection. -/
theorem c7_setTo_fromSelection_isEqual_witness :
    ((Selection.mk [⟨7, 9⟩] false false "")._setTo
        (.fromSelection (Selection.mk [⟨1, 2⟩] true true "label")) {}).sel.isEqual
      (Selection.mk [⟨1, 2⟩] true true "label") = true :=
  (c7_setTo_fromSelection_isEqual (Selection.mk [⟨7, 9⟩] false false "")
    (Selection.mk [⟨1, 2⟩] true true "label") {}
    (by simp [pairwiseNonIntersecting])).2.2.2.2.2.2.2.1

theorem addRange_fake_fields (s : Selection) (r : VRange) (b : Bool) :
    (s._addRange r b).1.isFake = s.isFake ∧
    (s._addRange r b).1.fakeSelectionLabel = s.fakeSelectionLabel := by
  unfold Selection._addRange Selection._pushRange
  cases hf : s.ranges.find? (fun t => r.isIntersecting t) <;> simp

theorem setToStep_fake (s : Selection) (rs : List VRange) (b : Bool)
    (o : SetOptions) :
    (match
      (match s._setRanges rs b with
       | (s', none) => (s'._setFakeOptions o, none)
       | (s', some e) => (s', some e)) with
     | (s', none) => (⟨s', none, true⟩ : MutResult)
     | (s', some e) => ⟨s', some e, false⟩).err = none →
    (match
      (match s._setRanges rs b with
       | (s', none) => (s'._setFakeOptions o, none)
       | (s', some e) => (s', some e)) with
     | (s', none) => (⟨s', none, true⟩ : MutResult)
     | (s', some e) => ⟨s', some e, false⟩).sel.isFake = false →
    (match
      (match s._setRanges rs b with
       | (s', none) => (s'._setFakeOptions o, none)
       | (s', some e) => (s', some e)) with
     | (s', none) => (⟨s', none, true⟩ : MutResult)
     | (s', some e) => ⟨s', some e, false⟩).sel.fakeSelectionLabel = "" := by
  cases hr : s._setRanges rs b with
  | mk s' e =>
    cases e with
    | none =>
      intro _ hf
      simp only [Selection._setFakeOptions] at hf ⊢
      simp [hf]
    | some e =>
      intro h
      simp at h

theorem setTo_fake_invariant (s : Selection) (sel : Selectable)
    (o : SetOptions) (h : (s._setTo sel o).err = none) :
    (s._setTo sel o).sel.isFake = false →
    (s._setTo sel o).sel.fakeSelectionLabel = "" := by
  cases sel with
  | nullSel => exact setToStep_fake s [] false o h
  | fromSelection other =>
    exact setToStep_fake s other.getRanges other.isBackward
      { fake := other.isFake, label := some other.fakeSelectionLabel } h
  | fromRange range => exact setToStep_fake s [range] o.backward o h
  | fromPosition position =>
    exact setToStep_fake s [⟨position, position⟩] false o h
  | fromRanges ranges => exact setToStep_fake s ranges o.backward o h

theorem setFocus_fake_fields (s : Selection) (p : Pos) :
    (s._setFocus p).sel.isFake = s.isFake ∧
    (s._setFocus p).sel.fakeSelectionLabel = s.fakeSelectionLabel := by
  unfold Selection._setFocus
  cases ha : s.anchor with
  | none => exact ⟨rfl, rfl⟩
  | some A =>
    cases hf : s.focus with
    | none => exact ⟨rfl, rfl⟩
    | some F =>
      simp only []
      by_cases hsame : p.compareWith F = .same
      · simp [hsame]
      · rw [if_neg hsame]
        by_cases hbef : p.compareWith A = .before
        · rw [if_pos hbef]
          have hff := addRange_fake_fields
            { s with ranges := s.ranges.dropLast } ⟨p, A⟩ true
          cases hr :
              ({ s with ranges := s.ranges.dropLast } : Selection)._addRange ⟨p, A⟩ true with
          | mk s' e =>
            rw [hr] at hff
            cases e with
            | none => simpa using hff
            | some e => simpa using hff
        · rw [if_neg hbef]
          have hff := addRange_fake_fields
            { s with ranges := s.ranges.dropLast } ⟨A, p⟩ false
          cases hr :
              ({ s with ranges := s.ranges.dropLast } : Selection)._addRange ⟨A, p⟩ false with
          | mk s' e =>
            rw [hr] at hff
            cases e with
            | none => simpa using hff
            | some e => simpa using hff

theorem reachable_fake_label (s : Selection) (hs : Reachable s) :
    s.isFake = false → s.fakeSelectionLabel = "" := by
  induction hs with
  | construct sel o h => exact setTo_fake_invariant _ _ _ h
  | setTo s sel o hs h ih => exact setTo_fake_invariant _ _ _ h
  | setFocus s p hs h ih =>
    intro hf
    have hff := setFocus_fake_fields s p
    rw [hff.1] at hf
    rw [hff.2]
    exact ih hf

/-- C8: on every reachable selection the fake label is empty whenever the
fake flag is down (invariant I3); and `_setFakeOptions` sets the flag to
the coerced `options.fake` and keeps the label only when `fake` is truthy,
discarding it (empty string) otherwise, whatever label was passed. -/
theorem c8_fake_metadata_spec :
    (∀ s : Selection, Reachable s → s.isFake = false →
      s.fakeSelectionLabel = "") ∧
    (∀ (s : Selection) (o : SetOptions),
      (s._setFakeOptions o).isFake = o.fake ∧
      (s._setFakeOptions o).fakeSelectionLabel
        = if o.fake then o.label.getD "" else "") :=
  ⟨reachable_fake_label, fun _ _ => ⟨rfl, rfl⟩⟩

/-- Witness for C8: a non-fake construction with a label supplied anyway
ends with an empty label. -/
theorem c8_fake_metadata_spec_witness :
    (Selection.construct .nullSel
        { fake := false, label := some "x" }).sel.fakeSelectionLabel = "" ∧
    ((Selection.mk [] false false "")._setFakeOptions
        { fake := false, label := some "y" }).isFake = false :=
  ⟨c8_fake_metadata_spec.1 _
      (Reachable.construct .nullSel { fake := false, label := some "x" }
        (by decide))
      (by decide),
   ((c8_fake_metadata_spec.2 (Selection.mk [] false false "")
      { fake := false, label := some "y" }).1.trans rfl)⟩

theorem addRangesLoop_cons (acc : Selection) (x : VRange) (xs : List VRange) :
    addRangesLoop acc (x :: xs)
      = match acc._addRange x false with
        | (s', none) => addRangesLoop s' xs
        | (s', some e) => (s', some e) := rfl

theorem addRangesLoop_append (l1 l2 : List VRange) : ∀ (acc : Selection),
    addRangesLoop acc (l1 ++ l2)
      = match addRangesLoop acc l1 with
        | (s', none) => addRangesLoop s' l2
        | (s', some e) => (s', some e) := by
  induction l1 with
  | nil => intro acc; rfl
  | cons x xs ih =>
    intro acc
    rw [List.cons_append, addRangesLoop_cons, addRangesLoop_cons]
    cases h : acc._addRange x false with
    | mk s' e =>
      cases e with
      | none =>
        simp only []
        exact ih s'
      | some e => rfl

/-- C9: replacing the range set is not atomic — the old ranges are cleared
first and the new ones inserted one by one, so when the insertion of a new
range fails against an earlier new range, the selection is left holding
exactly the new ranges inserted so far; the old ranges are lost, not rolled
back. -/
theorem c9_setRanges_partial (s : Selection) (pre : List VRange) (r : VRange)
    (post : List VRange) (b : Bool)
    (hpre : pairwiseNonIntersecting pre)
    (hint : ∃ t ∈ pre, r.isIntersecting t = true) :
    (s._setRanges (pre ++ r :: post) b).1.ranges = pre ∧
    ∃ t ∈ pre, (s._setRanges (pre ++ r :: post) b).2
      = some (.intersectingRange r t) := by
  unfold Selection._setRanges
  rw [addRangesLoop_append pre (r :: post) { s with ranges := [] }]
  have hloop := addRangesLoop_ok pre { s with ranges := [] } (by simpa using hpre)
  cases hl : addRangesLoop { s with ranges := [] } pre with
  | mk accPre e0 =>
    rw [hl] at hloop
    obtain ⟨he0, hranges, -, -⟩ := hloop
    simp only at he0 hranges
    subst he0
    simp only [List.nil_append] at hranges
    have hsome : (accPre.ranges.find? (fun t => r.isIntersecting t)).isSome := by
      rw [List.find?_isSome]
      obtain ⟨t, ht, hrt⟩ := hint
      exact ⟨t, by rw [hranges]; exact ht, by simpa using hrt⟩
    obtain ⟨t, hft⟩ := Option.isSome_iff_exists.mp hsome
    have hmem : t ∈ pre := by
      rw [← hranges]
      exact List.mem_of_find?_eq_some hft
    have haddr : accPre._addRange r false
        = (accPre, some (.intersectingRange r t)) := by
      simp [Selection._addRange, Selection._pushRange, hft]
    simp only []
    rw [show addRangesLoop accPre (r :: post)
        = (accPre, some (.intersectingRange r t)) from by
      rw [addRangesLoop_cons, haddr]]
    exact ⟨hranges, t, hmem, rfl⟩

/-- Witness for C9: old range `(10,20)` is lost; of the new batch
`[(0,2), (1,3), (5,6)]` only `(0,2)` survives when `(1,3)` collides. -/
theorem c9_setRanges_partial_witness :
    ((Selection.mk [⟨10, 20⟩] true false "")._setRanges
        ([⟨0, 2⟩] ++ ⟨1, 3⟩ :: [⟨5, 6⟩]) true).1.ranges = [⟨0, 2⟩] ∧
    ∃ t ∈ ([⟨0, 2⟩] : List VRange),
      ((Selection.mk [⟨10, 20⟩] true false "")._setRanges
        ([⟨0, 2⟩] ++ ⟨1, 3⟩ :: [⟨5, 6⟩]) true).2
        = some (.intersectingRange ⟨1, 3⟩ t) :=
  c9_setRanges_partial (Selection.mk [⟨10, 20⟩] true false "")
    [⟨0, 2⟩] ⟨1, 3⟩ [⟨5, 6⟩] true
    (by simp [pairwiseNonIntersecting]) (by decide)

/-- C10: `isSimilar` ignores fake-selection metadata entirely: replacing
both selections' fake flag and label changes nothing, so selections with
the same direction whose (trimmed) range sets match — in particular two
empty selections of equal direction — are similar regardless of fake
metadata, while `isEqual` distinguishes empty selections whose fake flags
differ.  Stated for every trimming function the Range collaborator could
supply. -/
theorem c10_isSimilar_ignores_fake :
    (∀ (trim : VRange → VRange) (a b : Selection) (fa fb : Bool)
       (la lb : String),
      Selection.isSimilar trim
        (Selection.mk a.ranges a.lastRangeBackward fa la)
        (Selection.mk b.ranges b.lastRangeBackward fb lb)
        = Selection.isSimilar trim a b) ∧
    (∀ (trim : VRange → VRange) (a b : Selection),
      a.ranges = [] → b.ranges = [] → a.isBackward = b.isBackward →
      Selection.isSimilar trim a b = true) ∧
    (∀ (a b : Selection), a.ranges = [] → b.ranges = [] →
      a.isFake ≠ b.isFake → a.isEqual b = false) := by
  refine ⟨?_, ?_, ?_⟩
  · intro trim a b fa fb la lb
    rfl
  · intro trim a b ha hb hdir
    simp [Selection.isSimilar, Selection.getRanges, ha, hb, hdir]
  · intro a b ha hb hne
    have h1 : (a.isFake != b.isFake) = true := by
      rw [bne_iff_ne]
      exact hne
    simp [Selection.isEqual, h1]

/-- Witness for C10, the claim's "in particular": two empty selections with
different fake metadata are similar but not `isEqual`. -/
theorem c10_isSimilar_ignores_fake_witness :
    Selection.isSimilar (fun r => r) (Selection.mk [] true true "x")
      (Selection.mk [] true false "") = true ∧
    Selection.isEqual (Selection.mk [] true true "x")
      (Selection.mk [] true false "") = false :=
  ⟨c10_isSimilar_ignores_fake.2.1 (fun r => r) (Selection.mk [] true true "x")
      (Selection.mk [] true false "") rfl rfl (by decide),
   c10_isSimilar_ignores_fake.2.2 (Selection.mk [] true true "x")
      (Selection.mk [] true false "") rfl rfl (by decide)⟩

example : Pos.compareWith 1 2 = .before := by decide
example : (VRange.mk 0 2).isIntersecting ⟨1, 3⟩ = true := by decide
example : (VRange.mk 0 2).isIntersecting ⟨2, 3⟩ = false := by decide
example : (VRange.mk 5 5).isIntersecting ⟨5, 5⟩ = false := by decide
example :
    (Selection.construct (.fromRanges [⟨0, 1⟩, ⟨2, 3⟩]) {}).sel.ranges
      = [⟨0, 1⟩, ⟨2, 3⟩] := by decide
example :
    (Selection.construct (.fromRanges [⟨0, 2⟩, ⟨1, 3⟩]) {}).err
      = some (.intersectingRange ⟨1, 3⟩ ⟨0, 2⟩) := by decide
example :
    ((Selection.mk [⟨2, 2⟩] false false "")._setFocus 0).sel
      = ⟨[⟨0, 2⟩], true, false, ""⟩ := by decide
example :
    ((Selection.mk [⟨1, 3⟩] false false "")._setFocus 3)
      = ⟨⟨[⟨1, 3⟩], false, false, ""⟩, none, false⟩ := by decide
